import Mathlib

/-!
Shallow embedding of `src/agent.py` (Bedrock MCP agent): the result
normalizer `_json_objectize`, the `MCPToolCatalog` connection/call state
machine, and the `BedrockMCPAgent` chat round loop with its model-invoke
retry.  External collaborators (the remote MCP server's `call_tool`, the
Bedrock `converse` endpoint, and the stdlib `json.loads`) are modelled as
oracle functions passed in as parameters; logging and timestamps are
dropped as pure console I/O.
-/

/-- Python values as they flow through the agent: JSON-like data plus a
constructor for objects that `json.dumps` rejects with `TypeError`
(carrying the string `str(value)` would produce). -/
inductive PyVal where
  | none : PyVal
  | bool (b : Bool) : PyVal
  | int (n : Int) : PyVal
  | str (s : String) : PyVal
  | arr (xs : List PyVal) : PyVal
  | obj (fields : List (String × PyVal)) : PyVal
  | unserializable (pyRepr : String) : PyVal

mutual

/-- Whether `json.dumps(value)` succeeds (no `TypeError`). -/
def PyVal.isJsonSerializable : PyVal → Bool
  | .none => true
  | .bool _ => true
  | .int _ => true
  | .str _ => true
  | .arr xs => serializableList xs
  | .obj fs => serializableFields fs
  | .unserializable _ => false

/-- Serializability of every element of a JSON array. -/
def serializableList : List PyVal → Bool
  | [] => true
  | x :: xs => x.isJsonSerializable && serializableList xs

/-- Serializability of every value of a JSON object. -/
def serializableFields : List (String × PyVal) → Bool
  | [] => true
  | (_, v) :: fs => v.isJsonSerializable && serializableFields fs

end

/-- The Python `str(value)` conversion, as far as the agent exercises it
(only reached on the non-serializable fallback branch). -/
def pyStr : PyVal → String
  | .none => "None"
  | .bool b => if b then "True" else "False"
  | .int n => toString n
  | .str s => s
  | .arr _ => "<list>"
  | .obj _ => "<dict>"
  | .unserializable r => r

/-- `isinstance(value, dict)`. -/
def PyVal.isDict : PyVal → Bool
  | .obj _ => true
  | _ => false

/-- `isinstance(value, list)`. -/
def PyVal.isList : PyVal → Bool
  | .arr _ => true
  | _ => false

/-- `_json_objectize` from `agent.py`: dict passes through, list is
wrapped under "items", any other value that `json.dumps` accepts is
wrapped under "result", and the `TypeError` fallback wraps `str(value)`
under "result". -/
def json_objectize : PyVal → PyVal
  | .obj fs => .obj fs
  | .arr xs => .obj [("items", .arr xs)]
  | v => if v.isJsonSerializable then .obj [("result", v)]
         else .obj [("result", .str (pyStr v))]

/-- One cached tool entry of `MCPToolCatalog._tools` (the dict value
built in `__aenter__`). -/
structure ToolEntry where
  name : String
  description : String
  inputSchema : Option PyVal
  original_name : String

/-- One tool as reported by the remote `list_tools` call. -/
structure ToolInfo where
  name : String
  description : Option String
  inputSchema : Option PyVal

/-- `MCPToolCatalog` state.  The transport pair `_client`/`_ctx_client`
is abstracted to a session generation number `clientGen`: `_new_client`
plus `__aenter__` on the client produce a fresh session, so each refresh
bumps the generation while the endpoint `src` and credential `auth` it
is built from stay fixed. -/
structure MCPToolCatalog where
  src : String
  auth : Option String
  tools : List (String × ToolEntry)
  active : Bool
  clientGen : Nat

/-- Python-dict insertion into an association list: replaces the value of
an existing key in place, else appends, so first-match lookup agrees with
dict semantics. -/
def dictUpsert (m : List (String × ToolEntry)) (k : String) (v : ToolEntry) :
    List (String × ToolEntry) :=
  match m with
  | [] => [(k, v)]
  | (k₀, v₀) :: rest =>
    if k₀ = k then (k, v) :: rest else (k₀, v₀) :: dictUpsert rest k v

/-- `self._tools.get(tool_name)`: first-match association lookup. -/
def lookupTool (m : List (String × ToolEntry)) (k : String) : Option ToolEntry :=
  match m with
  | [] => Option.none
  | (k₀, v) :: rest => if k₀ = k then some v else lookupTool rest k

/-- `MCPToolCatalog.__aenter__`: open a fresh session, mark the catalog
active, and cache the tool snapshot keyed by name (dict comprehension,
`description` defaulted to the empty string, `original_name` set to the
reported name).  The `list_tools` response is the `tools` argument. -/
def MCPToolCatalog.aenter (st : MCPToolCatalog) (tools : List ToolInfo) :
    MCPToolCatalog :=
  { st with
    active := true
    clientGen := st.clientGen + 1
    tools := tools.foldl (fun m t =>
      dictUpsert m t.name
        { name := t.name
          description := t.description.getD ""
          inputSchema := t.inputSchema
          original_name := t.name }) [] }

/-- `MCPToolCatalog._refresh_client`: close the current transport and
open a fresh session from the same endpoint and credential.  Only the
session generation changes. -/
def MCPToolCatalog.refresh_client (st : MCPToolCatalog) : MCPToolCatalog :=
  { st with clientGen := st.clientGen + 1 }

/-- The remote `call_tool` response shape consumed by `call`: optional
`data` payload, optional `structured_content` payload, and content
fragments of which some bear a `text` attribute (`some text`) and some
do not (`none`). -/
structure CallToolResult where
  data : Option PyVal
  structured_content : Option PyVal
  content : List (Option String)

/-- The tail of `MCPToolCatalog.call`: prefer `res.data`, else
`res.structured_content`, else join the non-empty texts of the
text-bearing fragments with newlines under "result" (Python `None` when
no fragment bears a text attribute at all). -/
def normalizeCallResult (res : CallToolResult) : PyVal :=
  match res.data with
  | some d => d
  | Option.none =>
    match res.structured_content with
    | some s => s
    | Option.none =>
      let texts := res.content.filterMap id
      if texts.isEmpty then .obj [("result", .none)]
      else .obj [("result",
        .str (String.intercalate "\n" (texts.filter fun t => t ≠ "")))]

/-- Error taxonomy of `MCPToolCatalog.call`: the `RuntimeError` raised
before any lookup, the `ValueError` for a name missing from the
snapshot, and a remote failure that survived the retry. -/
inductive CallError where
  | notActive : CallError
  | unknownTool (name : String) : CallError
  | remoteFailure (msg : String) : CallError
deriving DecidableEq

/-- `MCPToolCatalog.call`.  The remote side is the oracle `callTool`,
a function of the session generation, the tool's `original_name` and the
arguments (`arguments or {}` is the identity on dict arguments, so the
arguments are passed through).  Returns the call outcome, the catalog
state afterwards, and the number of remote attempts made.  A first
failure triggers `_refresh_client` and exactly one retry on the fresh
session; a second failure propagates. -/
def MCPToolCatalog.call (st : MCPToolCatalog)
    (callTool : Nat → String → PyVal → Except String CallToolResult)
    (tool_name : String) (arguments : PyVal) :
    Except CallError PyVal × MCPToolCatalog × Nat :=
  if st.active = false then (.error .notActive, st, 0)
  else
    match lookupTool st.tools tool_name with
    | Option.none => (.error (.unknownTool tool_name), st, 0)
    | some entry =>
      match callTool st.clientGen entry.original_name arguments with
      | .ok res => (.ok (normalizeCallResult res), st, 1)
      | .error _ =>
        let st' := st.refresh_client
        match callTool st'.clientGen entry.original_name arguments with
        | .ok res => (.ok (normalizeCallResult res), st', 2)
        | .error e => (.error (.remoteFailure e), st', 2)

/-- Message role in the Bedrock converse transcript. -/
inductive Role where
  | user : Role
  | assistant : Role
deriving DecidableEq

/-- One tool-use content block payload: call identifier, tool name, and
the "input" field, which may be absent (Python `None`), a structured
value, or a JSON-encoded string (a `PyVal.str`). -/
structure ToolUse where
  toolUseId : String
  name : String
  input : Option PyVal

/-- One content block of a transcript message: plain text, a tool-use
request, or a tool result carrying its originating call identifier and a
JSON payload (the Python `{"toolResult": {"toolUseId": ..., "content":
[{"json": ...}]}}` block). -/
inductive Block where
  | text (s : String) : Block
  | toolUse (tu : ToolUse) : Block
  | toolResult (toolUseId : String) (payload : PyVal) : Block

/-- One message of `self.messages`. -/
structure Message where
  role : Role
  content : List Block

/-- The converse response as consumed by `chat`: the stop reason and the
assistant message `response["output"]["message"]`. -/
structure ConverseResponse where
  stopReason : String
  message : Message

/-- Tool-use extraction from an assistant message: the `toolUse` payload
of every content block that has one, in content order. -/
def extractToolUses (m : Message) : List ToolUse :=
  m.content.filterMap fun b =>
    match b with
    | .toolUse tu => some tu
    | _ => Option.none

/-- Argument decoding in the chat loop: an absent "input" becomes the
empty dict, a string payload goes through `json.loads` (the `jsonLoads`
oracle, which may fail), anything else is used as is. -/
def resolveArgs (jsonLoads : String → Except String PyVal) :
    Option PyVal → Except String PyVal
  | Option.none => .ok (.obj [])
  | some (.str s) => jsonLoads s
  | some v => .ok v

/-- One dispatched tool call of a round: decode the arguments, then call
the catalog (the `tool` oracle stands for `self.mcp.call`); either step
may raise. -/
def callOne (tool : String → PyVal → Except String PyVal)
    (jsonLoads : String → Except String PyVal) (tu : ToolUse) :
    Except String PyVal :=
  match resolveArgs jsonLoads tu.input with
  | .error e => .error e
  | .ok args => tool tu.name args

/-- The per-round dispatch loop of `chat`: run the requested tool calls
in order, normalizing each raw result with `_json_objectize` into a
tool-result block tagged with the request's identifier.  The first
failure aborts the whole round and propagates (results already collected
are discarded). -/
def dispatchTools (tool : String → PyVal → Except String PyVal)
    (jsonLoads : String → Except String PyVal) :
    List ToolUse → Except String (List Block)
  | [] => .ok []
  | tu :: rest =>
    match callOne tool jsonLoads tu with
    | .error e => .error e
    | .ok raw =>
      match dispatchTools tool jsonLoads rest with
      | .error e => .error e
      | .ok blocks => .ok (.toolResult tu.toolUseId (json_objectize raw) :: blocks)

/-- The return-value computation of `chat`: take the text of every
content block that has one, drop the empty ones, and join the rest with
newlines. -/
def joinTexts (blocks : List Block) : String :=
  let texts := blocks.filterMap fun b =>
    match b with
    | Block.text s => some s
    | _ => Option.none
  String.intercalate "\n" (texts.filter fun t => t ≠ "")

/-- Content of `self.messages[-1]`.  `chat` only reads it after having
appended at least one message, so the empty-list default is never
exercised there. -/
def lastContent (messages : List Message) : List Block :=
  match messages.getLast? with
  | some m => m.content
  | Option.none => []

/-- The round loop of `chat`, with `fuel = max_tool_rounds - rounds` so
the Python guard `rounds < max_tool_rounds` is `fuel > 0`.  Returns the
chat outcome (normal return value, or the propagated tool failure), the
transcript `self.messages` afterwards, and the number of times the loop
body incremented `rounds`.  The model oracle stands for a successful
`_invoke`. -/
def chatLoop (model : List Message → ConverseResponse)
    (tool : String → PyVal → Except String PyVal)
    (jsonLoads : String → Except String PyVal) :
    Nat → ConverseResponse → List Message →
    Except String String × List Message × Nat
  | 0, _, messages => (.ok (joinTexts (lastContent messages)), messages, 0)
  | fuel + 1, response, messages =>
    if response.stopReason ≠ "tool_use" then
      (.ok (joinTexts (lastContent messages)), messages, 0)
    else
      let tus := extractToolUses response.message
      if tus.isEmpty then
        (.ok (joinTexts (lastContent messages)), messages, 1)
      else
        match dispatchTools tool jsonLoads tus with
        | .error e => (.error e, messages, 1)
        | .ok blocks =>
          let messages2 := messages ++ [Message.mk .user blocks]
          let response2 := model messages2
          let messages3 := messages2 ++ [response2.message]
          let r := chatLoop model tool jsonLoads fuel response2 messages3
          (r.1, r.2.1, r.2.2 + 1)

/-- `BedrockMCPAgent.chat`: append the user turn, invoke the model,
append the assistant turn, then run the round loop. -/
def chat (model : List Message → ConverseResponse)
    (tool : String → PyVal → Except String PyVal)
    (jsonLoads : String → Except String PyVal)
    (max_tool_rounds : Nat) (messages : List Message) (user_text : String) :
    Except String String × List Message × Nat :=
  let messages1 := messages ++ [Message.mk .user [Block.text user_text]]
  let response := model messages1
  let messages2 := messages1 ++ [response.message]
  chatLoop model tool jsonLoads max_tool_rounds response messages2

/-- `BedrockMCPAgent._invoke`: try `converse` once (the `attempt` oracle,
indexed by attempt number); on any exception sleep 2 seconds and retry
exactly once, propagating a second failure.  Returns the outcome, the
number of `converse` attempts made, and the list of sleep durations
performed. -/
def invokeWithRetry (attempt : Nat → Except String ConverseResponse) :
    Except String ConverseResponse × Nat × List Nat :=
  match attempt 1 with
  | .ok r => (.ok r, 1, [])
  | .error _ =>
    match attempt 2 with
    | .ok r => (.ok r, 2, [2])
    | .error e => (.error e, 2, [2])

/-- Modelled from the spec claim's words, for comparison with the code's
`normalizeCallResult` text branch: the text of every text-bearing content
fragment concatenated in response order with newline separators, null
when there is no text-bearing fragment at all. -/
def specTextConcat (res : CallToolResult) : Option String :=
  let texts := res.content.filterMap id
  if texts.isEmpty then Option.none
  else some (String.intercalate "\n" texts)

/-- C4: `_json_objectize` passes mappings through unchanged, wraps lists
under "items", wraps any other JSON-serializable value under "result"
(in particular a bare list and the scalar 42 as claimed), and wraps
`str(value)` under "result" for other non-serializable values. -/
theorem json_objectize_spec :
    (∀ fs, json_objectize (.obj fs) = .obj fs) ∧
    (∀ xs, json_objectize (.arr xs) = .obj [("items", .arr xs)]) ∧
    (∀ v : PyVal, v.isDict = false → v.isList = false →
      v.isJsonSerializable = true →
      json_objectize v = .obj [("result", v)]) ∧
    json_objectize (.arr [.int 1, .int 2, .int 3])
      = .obj [("items", .arr [.int 1, .int 2, .int 3])] ∧
    json_objectize (.int 42) = .obj [("result", .int 42)] ∧
    (∀ v : PyVal, v.isDict = false → v.isList = false →
      v.isJsonSerializable = false →
      json_objectize v = .obj [("result", .str (pyStr v))]) := by
  refine ⟨fun fs => rfl, fun xs => rfl, ?_, rfl, rfl, ?_⟩
  · intro v h1 h2 h3
    cases v <;> simp_all [json_objectize, PyVal.isDict, PyVal.isList]
  · intro v h1 h2 h3
    cases v <;> simp_all [json_objectize, PyVal.isDict, PyVal.isList]

/-- Witness for `json_objectize_spec` at concrete serializable and
non-serializable scalars. -/
theorem json_objectize_spec_witness :
    json_objectize (.int 7) = .obj [("result", .int 7)] ∧
    json_objectize (.unserializable "X") = .obj [("result", .str "X")] :=
  ⟨json_objectize_spec.2.2.1 (.int 7) rfl rfl rfl,
   json_objectize_spec.2.2.2.2.2 (.unserializable "X") rfl rfl rfl⟩

/-- C5 counterexample: with a response whose fragments are a text "a" and
an empty text "", the code joins only the non-empty texts and returns
"a", while concatenating the text of every text-bearing fragment with
newline separators (the claim's words, `specTextConcat`) yields the
different string of "a" followed by a newline. -/
theorem call_text_join_counterexample :
    normalizeCallResult ⟨Option.none, Option.none, [some "a", some ""]⟩
      = PyVal.obj [("result", PyVal.str "a")] ∧
    specTextConcat ⟨Option.none, Option.none, [some "a", some ""]⟩
      = some (String.intercalate "\n" ["a", ""]) ∧
    "a" ≠ String.intercalate "\n" ["a", ""] := by
  refine ⟨rfl, rfl, by decide⟩

/-- C5 (amended): on a successful remote call the catalog returns the
normalized response, and the normalization prefers the structured data
payload, else the structured content payload, else wraps the newline
join of the non-empty texts of the text-bearing fragments under
"result", with a null value exactly when no fragment bears a text
attribute at all. -/
theorem call_result_preference (st : MCPToolCatalog)
    (callTool : Nat → String → PyVal → Except String CallToolResult)
    (tool_name : String) (arguments : PyVal) (entry : ToolEntry)
    (res : CallToolResult)
    (hactive : st.active = true)
    (hentry : lookupTool st.tools tool_name = some entry)
    (hok : callTool st.clientGen entry.original_name arguments = .ok res) :
    st.call callTool tool_name arguments
      = (.ok (normalizeCallResult res), st, 1) ∧
    (∀ d, res.data = some d → normalizeCallResult res = d) ∧
    (∀ s, res.data = Option.none → res.structured_content = some s →
      normalizeCallResult res = s) ∧
    (res.data = Option.none → res.structured_content = Option.none →
      res.content.filterMap id = [] →
      normalizeCallResult res = .obj [("result", .none)]) ∧
    (res.data = Option.none → res.structured_content = Option.none →
      res.content.filterMap id ≠ [] →
      normalizeCallResult res = .obj [("result",
        .str (String.intercalate "\n"
          ((res.content.filterMap id).filter fun t => t ≠ "")))]) := by
  refine ⟨?_, ?_, ?_, ?_, ?_⟩
  · simp [MCPToolCatalog.call, hactive, hentry, hok]
  · intro d hd
    simp [normalizeCallResult, hd]
  · intro s hd hs
    simp [normalizeCallResult, hd, hs]
  · intro hd hs ht
    simp [normalizeCallResult, hd, hs, ht]
  · intro hd hs ht
    simp [normalizeCallResult, hd, hs, List.isEmpty_iff, ht]

/-- Witness for `call_result_preference` on a concrete one-tool catalog
whose remote call succeeds with a data payload. -/
theorem call_result_preference_witness :
    (MCPToolCatalog.mk "ep" (some "tok")
        [("t", ToolEntry.mk "t" "" Option.none "t")] true 0).call
      (fun _ _ _ => .ok ⟨some (.int 5), Option.none, []⟩) "t" (.obj [])
      = (.ok (normalizeCallResult ⟨some (.int 5), Option.none, []⟩),
         MCPToolCatalog.mk "ep" (some "tok")
           [("t", ToolEntry.mk "t" "" Option.none "t")] true 0, 1) ∧
    normalizeCallResult ⟨some (.int 5), Option.none, []⟩ = .int 5 := by
  have h := call_result_preference
    (MCPToolCatalog.mk "ep" (some "tok")
      [("t", ToolEntry.mk "t" "" Option.none "t")] true 0)
    (fun _ _ _ => .ok ⟨some (.int 5), Option.none, []⟩) "t" (.obj [])
    (ToolEntry.mk "t" "" Option.none "t") ⟨some (.int 5), Option.none, []⟩
    rfl rfl rfl
  exact ⟨h.1, h.2.1 (.int 5) rfl⟩

/-- C6: calling a tool name absent from the cached snapshot on an active
catalog fails immediately with the unknown-tool error, makes zero remote
attempts, leaves the catalog state (hence the session) untouched, and
the error kind is distinct from a failed remote call's. -/
theorem call_unknown_tool (st : MCPToolCatalog)
    (callTool : Nat → String → PyVal → Except String CallToolResult)
    (tool_name : String) (arguments : PyVal)
    (hactive : st.active = true)
    (hmiss : lookupTool st.tools tool_name = Option.none) :
    st.call callTool tool_name arguments
      = (.error (.unknownTool tool_name), st, 0) ∧
    (∀ msg, CallError.unknownTool tool_name ≠ CallError.remoteFailure msg) := by
  constructor
  · simp [MCPToolCatalog.call, hactive, hmiss]
  · intro msg h
    exact CallError.noConfusion h

/-- Witness for `call_unknown_tool` on a concrete active catalog with an
empty snapshot. -/
theorem call_unknown_tool_witness :
    (MCPToolCatalog.mk "ep" Option.none [] true 3).call
      (fun _ _ _ => .error "boom") "ghost" (.obj [])
      = (.error (.unknownTool "ghost"),
         MCPToolCatalog.mk "ep" Option.none [] true 3, 0) :=
  (call_unknown_tool (MCPToolCatalog.mk "ep" Option.none [] true 3)
    (fun _ _ _ => .error "boom") "ghost" (.obj []) rfl rfl).1

/-- C2: when the first remote attempt fails on an active catalog with a
known tool, the catalog performs exactly one recovery cycle (a fresh
session generation over the same endpoint and credential) and retries
exactly once: a second-attempt success is returned normalized, a
second-attempt failure propagates, and in both cases exactly two remote
attempts are made. -/
theorem call_retry_once (st : MCPToolCatalog)
    (callTool : Nat → String → PyVal → Except String CallToolResult)
    (tool_name : String) (arguments : PyVal) (entry : ToolEntry)
    (e₁ : String)
    (hactive : st.active = true)
    (hentry : lookupTool st.tools tool_name = some entry)
    (hfail1 : callTool st.clientGen entry.original_name arguments
      = .error e₁) :
    ((st.refresh_client).src = st.src ∧
     (st.refresh_client).auth = st.auth ∧
     (st.refresh_client).clientGen = st.clientGen + 1) ∧
    (∀ res, callTool (st.clientGen + 1) entry.original_name arguments
        = .ok res →
      st.call callTool tool_name arguments
        = (.ok (normalizeCallResult res), st.refresh_client, 2)) ∧
    (∀ e₂, callTool (st.clientGen + 1) entry.original_name arguments
        = .error e₂ →
      st.call callTool tool_name arguments
        = (.error (.remoteFailure e₂), st.refresh_client, 2)) := by
  refine ⟨⟨rfl, rfl, rfl⟩, ?_, ?_⟩
  · intro res hok
    simp [MCPToolCatalog.call, hactive, hentry, hfail1,
      MCPToolCatalog.refresh_client, hok]
  · intro e₂ hfail2
    simp [MCPToolCatalog.call, hactive, hentry, hfail1,
      MCPToolCatalog.refresh_client, hfail2]

/-- Witness for `call_retry_once` on a concrete catalog whose remote
fails on session generation 0 and succeeds on generation 1. -/
theorem call_retry_once_witness :
    (MCPToolCatalog.mk "ep" (some "tok")
        [("t", ToolEntry.mk "t" "" Option.none "t")] true 0).call
      (fun gen _ _ =>
        if gen = 0 then .error "stale"
        else .ok ⟨some (.str "ok"), Option.none, []⟩) "t" (.obj [])
      = (.ok (normalizeCallResult ⟨some (.str "ok"), Option.none, []⟩),
         MCPToolCatalog.mk "ep" (some "tok")
           [("t", ToolEntry.mk "t" "" Option.none "t")] true 1, 2) :=
  (call_retry_once (MCPToolCatalog.mk "ep" (some "tok")
      [("t", ToolEntry.mk "t" "" Option.none "t")] true 0)
    (fun gen _ _ =>
      if gen = 0 then .error "stale"
      else .ok ⟨some (.str "ok"), Option.none, []⟩) "t" (.obj [])
    (ToolEntry.mk "t" "" Option.none "t") "stale" rfl rfl rfl).2.1
    ⟨some (.str "ok"), Option.none, []⟩ rfl

/-- C9: `_refresh_client` replaces only the transport session (the
generation number); the cached tool snapshot, endpoint source,
credential and active flag are unchanged, and `call` likewise never
changes any of them on any of its paths. -/
theorem refresh_preserves_snapshot (st : MCPToolCatalog)
    (callTool : Nat → String → PyVal → Except String CallToolResult)
    (tool_name : String) (arguments : PyVal) :
    ((st.refresh_client).tools = st.tools ∧
     (st.refresh_client).src = st.src ∧
     (st.refresh_client).auth = st.auth ∧
     (st.refresh_client).active = st.active ∧
     (st.refresh_client).clientGen = st.clientGen + 1) ∧
    (((st.call callTool tool_name arguments).2.1).tools = st.tools ∧
     ((st.call callTool tool_name arguments).2.1).src = st.src ∧
     ((st.call callTool tool_name arguments).2.1).auth = st.auth ∧
     ((st.call callTool tool_name arguments).2.1).active = st.active) := by
  refine ⟨⟨rfl, rfl, rfl, rfl, rfl⟩, ?_⟩
  cases hact : st.active with
  | false => simp [MCPToolCatalog.call, hact]
  | true =>
    cases he : lookupTool st.tools tool_name with
    | none => simp [MCPToolCatalog.call, hact, he]
    | some entry =>
      cases hc : callTool st.clientGen entry.original_name arguments with
      | ok res => simp [MCPToolCatalog.call, hact, he, hc]
      | error e =>
        cases hc2 : callTool (st.clientGen + 1) entry.original_name arguments with
        | ok res =>
          simp [MCPToolCatalog.call, hact, he, hc, hc2,
            MCPToolCatalog.refresh_client]
        | error e₂ =>
          simp [MCPToolCatalog.call, hact, he, hc, hc2,
            MCPToolCatalog.refresh_client]

/-- C10: `_invoke` retries on any exception of the first `converse`
attempt, not only throttling: after a first-attempt failure it sleeps a
fixed 2 seconds and retries exactly once, returning a second-attempt
success and propagating a second-attempt failure, with exactly two
attempts in either case. -/
theorem invoke_retry_on_any_failure
    (attempt : Nat → Except String ConverseResponse) :
    (∀ r, attempt 1 = .ok r → invokeWithRetry attempt = (.ok r, 1, [])) ∧
    (∀ e₁, attempt 1 = .error e₁ →
      (∀ r, attempt 2 = .ok r → invokeWithRetry attempt = (.ok r, 2, [2])) ∧
      (∀ e₂, attempt 2 = .error e₂ →
        invokeWithRetry attempt = (.error e₂, 2, [2]))) := by
  constructor
  · intro r h
    simp [invokeWithRetry, h]
  · intro e₁ h₁
    constructor
    · intro r h₂
      simp [invokeWithRetry, h₁, h₂]
    · intro e₂ h₂
      simp [invokeWithRetry, h₁, h₂]

/-- Witness for `invoke_retry_on_any_failure`: a non-throttling failure
on the first attempt followed by a successful second attempt. -/
theorem invoke_retry_on_any_failure_witness :
    invokeWithRetry
      (fun n => if n = 1 then .error "ValidationException"
                else .ok ⟨"end_turn", Message.mk .assistant []⟩)
      = (.ok ⟨"end_turn", Message.mk .assistant []⟩, 2, [2]) :=
  ((invoke_retry_on_any_failure
      (fun n => if n = 1 then .error "ValidationException"
                else .ok ⟨"end_turn", Message.mk .assistant []⟩)).2
    "ValidationException" rfl).1 ⟨"end_turn", Message.mk .assistant []⟩ rfl

/-- Call identifier carried by a tool-result block, if any. -/
def blockResultId : Block → Option String
  | .toolResult i _ => some i
  | _ => Option.none

/-- Dispatching a round's tool calls produces exactly one tool-result
block per request, tagged with that request's identifier, in request
order. -/
theorem dispatchTools_ok_ids (tool : String → PyVal → Except String PyVal)
    (jsonLoads : String → Except String PyVal) :
    ∀ tus blocks, dispatchTools tool jsonLoads tus = .ok blocks →
      List.map blockResultId blocks
        = List.map (fun tu => some tu.toolUseId) tus := by
  intro tus
  induction tus with
  | nil =>
    intro blocks h
    simp [dispatchTools] at h
    simp [← h]
  | cons tu rest ih =>
    intro blocks h
    simp only [dispatchTools] at h
    cases hc : callOne tool jsonLoads tu with
    | error e => simp [hc] at h
    | ok raw =>
      simp only [hc] at h
      cases hd : dispatchTools tool jsonLoads rest with
      | error e => simp [hd] at h
      | ok bs =>
        simp only [hd] at h
        cases h
        simp [blockResultId, ih bs hd]

/-- The chat round loop only ever appends to the transcript. -/
theorem chatLoop_transcript_mono (model : List Message → ConverseResponse)
    (tool : String → PyVal → Except String PyVal)
    (jsonLoads : String → Except String PyVal) :
    ∀ fuel resp msgs, ∃ t,
      (chatLoop model tool jsonLoads fuel resp msgs).2.1 = msgs ++ t := by
  intro fuel
  induction fuel with
  | zero =>
    intro resp msgs
    exact ⟨[], by simp [chatLoop]⟩
  | succ fuel ih =>
    intro resp msgs
    by_cases hstop : resp.stopReason = "tool_use"
    · by_cases hemp : (extractToolUses resp.message).isEmpty
      · exact ⟨[], by simp [chatLoop, hstop, hemp]⟩
      · cases hd : dispatchTools tool jsonLoads (extractToolUses resp.message) with
        | error e => exact ⟨[], by simp [chatLoop, hstop, hemp, hd]⟩
        | ok blocks =>
          obtain ⟨t, ht⟩ := ih
            (model (msgs ++ [Message.mk .user blocks]))
            ((msgs ++ [Message.mk .user blocks])
              ++ [(model (msgs ++ [Message.mk .user blocks])).message])
          refine ⟨Message.mk .user blocks
            :: (model (msgs ++ [Message.mk .user blocks])).message :: t, ?_⟩
          simp [chatLoop, hstop, hemp, hd]
          simpa using ht
    · exact ⟨[], by simp [chatLoop, hstop]⟩

/-- C8: a "tool_use" response with no extractable tool-use blocks makes
the round loop exit silently, independently of the model oracle (so no
further invocation happens): the round returns the newline-joined text
of that assistant turn with the transcript unchanged. -/
theorem chat_malformed_tool_use_exit (model : List Message → ConverseResponse)
    (tool : String → PyVal → Except String PyVal)
    (jsonLoads : String → Except String PyVal) (fuel : Nat)
    (resp : ConverseResponse) (msgs : List Message)
    (hstop : resp.stopReason = "tool_use")
    (hempty : (extractToolUses resp.message).isEmpty = true)
    (hlast : msgs.getLast? = some resp.message) :
    chatLoop model tool jsonLoads (fuel + 1) resp msgs
      = (.ok (joinTexts resp.message.content), msgs, 1) := by
  simp [chatLoop, hstop, hempty, lastContent, hlast]

/-- Witness for `chat_malformed_tool_use_exit`: a concrete assistant
turn claiming tool use but containing only a text block. -/
theorem chat_malformed_tool_use_exit_witness :
    chatLoop (fun _ => ⟨"end_turn", Message.mk .assistant []⟩)
      (fun _ _ => .ok .none) (fun _ => .ok .none) 5
      ⟨"tool_use", Message.mk .assistant [Block.text "hello"]⟩
      [Message.mk .assistant [Block.text "hello"]]
      = (.ok (joinTexts [Block.text "hello"]),
         [Message.mk .assistant [Block.text "hello"]], 1) := by
  have h := chat_malformed_tool_use_exit
    (fun _ => ⟨"end_turn", Message.mk .assistant []⟩)
    (fun _ _ => .ok .none) (fun _ => .ok .none) 4
    ⟨"tool_use", Message.mk .assistant [Block.text "hello"]⟩
    [Message.mk .assistant [Block.text "hello"]]
    rfl rfl rfl
  exact h

/-- C3: in a round whose tool calls all succeed, the synthesized
tool-result blocks carry exactly the identifiers of the preceding
assistant turn's tool-use requests, one each, in the same order, and the
round loop appends them to the transcript as a single turn right after
that assistant turn's message list. -/
theorem chat_identifier_correlation (model : List Message → ConverseResponse)
    (tool : String → PyVal → Except String PyVal)
    (jsonLoads : String → Except String PyVal) (fuel : Nat)
    (resp : ConverseResponse) (msgs : List Message) (blocks : List Block)
    (hstop : resp.stopReason = "tool_use")
    (hne : (extractToolUses resp.message).isEmpty = false)
    (hrun : dispatchTools tool jsonLoads (extractToolUses resp.message)
      = .ok blocks) :
    List.map blockResultId blocks
      = List.map (fun tu => some tu.toolUseId) (extractToolUses resp.message) ∧
    ∃ rest, (chatLoop model tool jsonLoads (fuel + 1) resp msgs).2.1
      = msgs ++ Message.mk .user blocks :: rest := by
  refine ⟨dispatchTools_ok_ids tool jsonLoads _ blocks hrun, ?_⟩
  obtain ⟨t, ht⟩ := chatLoop_transcript_mono model tool jsonLoads fuel
    (model (msgs ++ [Message.mk .user blocks]))
    ((msgs ++ [Message.mk .user blocks])
      ++ [(model (msgs ++ [Message.mk .user blocks])).message])
  refine ⟨(model (msgs ++ [Message.mk .user blocks])).message :: t, ?_⟩
  simp [chatLoop, hstop, hne, hrun]
  simpa using ht

/-- Witness for `chat_identifier_correlation`: a round requesting two
tools with identifiers "t1" and "t2" whose dispatch succeeds. -/
theorem chat_identifier_correlation_witness :
    List.map blockResultId
      [Block.toolResult "t1" (json_objectize (.int 1)),
       Block.toolResult "t2" (json_objectize (.int 1))]
      = List.map (fun tu => some tu.toolUseId)
          (extractToolUses (Message.mk .assistant
            [Block.toolUse ⟨"t1", "a", Option.none⟩,
             Block.toolUse ⟨"t2", "b", Option.none⟩])) := by
  have h := chat_identifier_correlation
    (fun _ => ⟨"end_turn", Message.mk .assistant []⟩)
    (fun _ _ => .ok (.int 1)) (fun _ => .ok .none) 0
    ⟨"tool_use", Message.mk .assistant
      [Block.toolUse ⟨"t1", "a", Option.none⟩,
       Block.toolUse ⟨"t2", "b", Option.none⟩]⟩
    [] [Block.toolResult "t1" (json_objectize (.int 1)),
        Block.toolResult "t2" (json_objectize (.int 1))]
    rfl rfl rfl
  exact h.1

/-- A round's dispatch propagates the first failing call's error even
when an earlier segment of the round succeeded. -/
theorem dispatchTools_append_error (tool : String → PyVal → Except String PyVal)
    (jsonLoads : String → Except String PyVal) (tu : ToolUse) (e : String)
    (hfail : callOne tool jsonLoads tu = .error e) :
    ∀ pre rest bs, dispatchTools tool jsonLoads pre = .ok bs →
      dispatchTools tool jsonLoads (pre ++ tu :: rest) = .error e := by
  intro pre
  induction pre with
  | nil =>
    intro rest bs _
    simp [dispatchTools, hfail]
  | cons x xs ih =>
    intro rest bs hok
    simp only [dispatchTools, List.cons_append] at hok ⊢
    cases hc : callOne tool jsonLoads x with
    | error e₀ => simp [hc] at hok
    | ok raw =>
      simp only [hc] at hok ⊢
      cases hd : dispatchTools tool jsonLoads xs with
      | error e₀ => simp [hd] at hok
      | ok bs₀ => simp [ih rest bs₀ hd]

/-- C7: when a round's dispatch fails after an earlier segment of the
same round succeeded, the round aborts: the failure propagates as the
chat outcome, the round counter stops at that round, and no partial
tool-result turn is appended — the transcript is returned exactly as it
was, its last entry still the assistant turn that requested the tools. -/
theorem chat_round_abort (model : List Message → ConverseResponse)
    (tool : String → PyVal → Except String PyVal)
    (jsonLoads : String → Except String PyVal) (fuel : Nat)
    (resp : ConverseResponse) (msgs : List Message)
    (pre rest : List ToolUse) (tu : ToolUse) (bs : List Block) (e : String)
    (hstop : resp.stopReason = "tool_use")
    (hsplit : extractToolUses resp.message = pre ++ tu :: rest)
    (hpre : dispatchTools tool jsonLoads pre = .ok bs)
    (hfail : callOne tool jsonLoads tu = .error e)
    (hlast : msgs.getLast? = some resp.message) :
    chatLoop model tool jsonLoads (fuel + 1) resp msgs
      = (.error e, msgs, 1) ∧
    ((chatLoop model tool jsonLoads (fuel + 1) resp msgs).2.1).getLast?
      = some resp.message := by
  have hrun : dispatchTools tool jsonLoads (extractToolUses resp.message)
      = .error e := by
    rw [hsplit]
    exact dispatchTools_append_error tool jsonLoads tu e hfail pre rest bs hpre
  have hne : (extractToolUses resp.message).isEmpty = false := by
    rw [hsplit]
    simp
  have hmain : chatLoop model tool jsonLoads (fuel + 1) resp msgs
      = (.error e, msgs, 1) := by
    simp [chatLoop, hstop, hne, hrun]
  exact ⟨hmain, by rw [hmain]; exact hlast⟩

/-- Witness for `chat_round_abort`: a two-tool round where the first
call succeeds and the second fails. -/
theorem chat_round_abort_witness :
    chatLoop (fun _ => ⟨"end_turn", Message.mk .assistant []⟩)
      (fun n _ => if n = "good" then .ok (.int 1) else .error "boom")
      (fun _ => .ok .none) 3
      ⟨"tool_use", Message.mk .assistant
        [Block.toolUse ⟨"t1", "good", Option.none⟩,
         Block.toolUse ⟨"t2", "bad", Option.none⟩]⟩
      [Message.mk .assistant
        [Block.toolUse ⟨"t1", "good", Option.none⟩,
         Block.toolUse ⟨"t2", "bad", Option.none⟩]]
      = (.error "boom",
         [Message.mk .assistant
           [Block.toolUse ⟨"t1", "good", Option.none⟩,
            Block.toolUse ⟨"t2", "bad", Option.none⟩]], 1) :=
  (chat_round_abort (fun _ => ⟨"end_turn", Message.mk .assistant []⟩)
    (fun n _ => if n = "good" then .ok (.int 1) else .error "boom")
    (fun _ => .ok .none) 2
    ⟨"tool_use", Message.mk .assistant
      [Block.toolUse ⟨"t1", "good", Option.none⟩,
       Block.toolUse ⟨"t2", "bad", Option.none⟩]⟩
    [Message.mk .assistant
      [Block.toolUse ⟨"t1", "good", Option.none⟩,
       Block.toolUse ⟨"t2", "bad", Option.none⟩]]
    [⟨"t1", "good", Option.none⟩] [] ⟨"t2", "bad", Option.none⟩
    [Block.toolResult "t1" (json_objectize (.int 1))] "boom"
    rfl rfl rfl rfl rfl).1

/-- When the tool oracle and `json.loads` always succeed, a single
dispatched call succeeds. -/
theorem callOne_ok (tool : String → PyVal → Except String PyVal)
    (jsonLoads : String → Except String PyVal)
    (htool : ∀ n a, ∃ v, tool n a = .ok v)
    (hload : ∀ s, ∃ v, jsonLoads s = .ok v) (tu : ToolUse) :
    ∃ v, callOne tool jsonLoads tu = .ok v := by
  rcases hin : tu.input with _ | v
  · obtain ⟨v, hv⟩ := htool tu.name (.obj [])
    exact ⟨v, by simp [callOne, resolveArgs, hin, hv]⟩
  · cases v with
    | str s =>
      obtain ⟨a, ha⟩ := hload s
      obtain ⟨v, hv⟩ := htool tu.name a
      exact ⟨v, by simp [callOne, resolveArgs, hin, ha, hv]⟩
    | none =>
      obtain ⟨v, hv⟩ := htool tu.name .none
      exact ⟨v, by simp [callOne, resolveArgs, hin, hv]⟩
    | bool b =>
      obtain ⟨v, hv⟩ := htool tu.name (.bool b)
      exact ⟨v, by simp [callOne, resolveArgs, hin, hv]⟩
    | int n =>
      obtain ⟨v, hv⟩ := htool tu.name (.int n)
      exact ⟨v, by simp [callOne, resolveArgs, hin, hv]⟩
    | arr xs =>
      obtain ⟨v, hv⟩ := htool tu.name (.arr xs)
      exact ⟨v, by simp [callOne, resolveArgs, hin, hv]⟩
    | obj fs =>
      obtain ⟨v, hv⟩ := htool tu.name (.obj fs)
      exact ⟨v, by simp [callOne, resolveArgs, hin, hv]⟩
    | unserializable r =>
      obtain ⟨v, hv⟩ := htool tu.name (.unserializable r)
      exact ⟨v, by simp [callOne, resolveArgs, hin, hv]⟩

/-- When the tool oracle and `json.loads` always succeed, a whole
round's dispatch succeeds. -/
theorem dispatchTools_all_ok (tool : String → PyVal → Except String PyVal)
    (jsonLoads : String → Except String PyVal)
    (htool : ∀ n a, ∃ v, tool n a = .ok v)
    (hload : ∀ s, ∃ v, jsonLoads s = .ok v) :
    ∀ tus, ∃ blocks, dispatchTools tool jsonLoads tus = .ok blocks := by
  intro tus
  induction tus with
  | nil => exact ⟨[], rfl⟩
  | cons tu rest ih =>
    obtain ⟨v, hv⟩ := callOne_ok tool jsonLoads htool hload tu
    obtain ⟨blocks, hb⟩ := ih
    exact ⟨.toolResult tu.toolUseId (json_objectize v) :: blocks,
      by simp [dispatchTools, hv, hb]⟩

/-- The round loop, under a model that always requests tool use with at
least one tool-use block and tools that always succeed, runs its body
exactly `fuel` times and ends by returning the joined text of the last
appended assistant turn. -/
theorem chatLoop_exhausts_fuel (model : List Message → ConverseResponse)
    (tool : String → PyVal → Except String PyVal)
    (jsonLoads : String → Except String PyVal)
    (hstop : ∀ ms, (model ms).stopReason = "tool_use")
    (hne : ∀ ms, (extractToolUses (model ms).message).isEmpty = false)
    (hrole : ∀ ms, (model ms).message.role = .assistant)
    (htool : ∀ n a, ∃ v, tool n a = .ok v)
    (hload : ∀ s, ∃ v, jsonLoads s = .ok v) :
    ∀ fuel (resp : ConverseResponse) (msgs : List Message),
      resp.stopReason = "tool_use" →
      (extractToolUses resp.message).isEmpty = false →
      resp.message.role = .assistant →
      msgs.getLast? = some resp.message →
      ∃ m msgs', msgs'.getLast? = some m ∧ m.role = .assistant ∧
        chatLoop model tool jsonLoads fuel resp msgs
          = (.ok (joinTexts m.content), msgs', fuel) := by
  intro fuel
  induction fuel with
  | zero =>
    intro resp msgs _ _ hr hlast
    exact ⟨resp.message, msgs, hlast, hr,
      by simp [chatLoop, lastContent, hlast]⟩
  | succ fuel ih =>
    intro resp msgs hs hne₀ _ _
    obtain ⟨blocks, hb⟩ := dispatchTools_all_ok tool jsonLoads htool hload
      (extractToolUses resp.message)
    have hrec := ih (model (msgs ++ [Message.mk .user blocks]))
      ((msgs ++ [Message.mk .user blocks])
        ++ [(model (msgs ++ [Message.mk .user blocks])).message])
      (hstop _) (hne _) (hrole _) (by simp)
    obtain ⟨m, msgs', hlast', hr', heq⟩ := hrec
    refine ⟨m, msgs', hlast', hr', ?_⟩
    have harg : (msgs ++ [Message.mk .user blocks])
        ++ [(model (msgs ++ [Message.mk .user blocks])).message]
        = msgs ++ [Message.mk .user blocks,
            (model (msgs ++ [Message.mk .user blocks])).message] := by simp
    rw [harg] at heq
    simp [chatLoop, hs, hne₀, hb, heq]

/-- C1: with a model that always answers "tool_use" with at least one
tool-use block and tools that always succeed, `chat` terminates after
exactly `max_tool_rounds` iterations of the round loop and returns the
newline-joined text content of the last appended assistant turn; the
round counter of the result equals `max_tool_rounds` for every
`max_tool_rounds`, so it never loops indefinitely. -/
theorem chat_round_bound (model : List Message → ConverseResponse)
    (tool : String → PyVal → Except String PyVal)
    (jsonLoads : String → Except String PyVal)
    (max_tool_rounds : Nat) (msgs0 : List Message) (user_text : String)
    (hstop : ∀ ms, (model ms).stopReason = "tool_use")
    (hne : ∀ ms, (extractToolUses (model ms).message).isEmpty = false)
    (hrole : ∀ ms, (model ms).message.role = .assistant)
    (htool : ∀ n a, ∃ v, tool n a = .ok v)
    (hload : ∀ s, ∃ v, jsonLoads s = .ok v) :
    ∃ m msgs', msgs'.getLast? = some m ∧ m.role = .assistant ∧
      chat model tool jsonLoads max_tool_rounds msgs0 user_text
        = (.ok (joinTexts m.content), msgs', max_tool_rounds) := by
  have h := chatLoop_exhausts_fuel model tool jsonLoads hstop hne hrole
    htool hload max_tool_rounds
    (model (msgs0 ++ [Message.mk .user [Block.text user_text]]))
    ((msgs0 ++ [Message.mk .user [Block.text user_text]])
      ++ [(model (msgs0 ++ [Message.mk .user [Block.text user_text]])).message])
    (hstop _) (hne _) (hrole _) (by simp)
  obtain ⟨m, msgs', hlast', hr', heq⟩ := h
  exact ⟨m, msgs', hlast', hr', by simpa [chat] using heq⟩

/-- Witness for `chat_round_bound`: a model that always requests tool
"echo" with identifier "t1" and a tool that always returns 1, with a
round cap of 2. -/
theorem chat_round_bound_witness :
    ∃ m msgs', msgs'.getLast? = some m ∧ m.role = .assistant ∧
      chat (fun _ => ⟨"tool_use", Message.mk .assistant
          [Block.toolUse ⟨"t1", "echo", Option.none⟩]⟩)
        (fun _ _ => .ok (.int 1)) (fun _ => .ok (.obj [])) 2 [] "hi"
        = (.ok (joinTexts m.content), msgs', 2) :=
  chat_round_bound (fun _ => ⟨"tool_use", Message.mk .assistant
      [Block.toolUse ⟨"t1", "echo", Option.none⟩]⟩)
    (fun _ _ => .ok (.int 1)) (fun _ => .ok (.obj [])) 2 [] "hi"
    (fun _ => rfl) (fun _ => rfl) (fun _ => rfl)
    (fun _ _ => ⟨.int 1, rfl⟩) (fun _ => ⟨.obj [], rfl⟩)
